import Mathlib

/-!
Verification of the GitTime AI frontend (src/frontend/src) against its
natural-language specification.  The JavaScript sources are shallowly
embedded: React components become pure functions from props/state to a
view datatype, the async fetch helpers become explicit state-transition
functions parameterised by the outcome of the network call, and the
per-feature caches (`versions`, `evolutions` in App.jsx) become
association lists with JavaScript object-spread update semantics.
-/

namespace GitTime

/-- A per-file change record as delivered to the frontend
(`file.filename`, `file.status`, `file.additions`, `file.deletions`
in FeatureList.jsx). -/
structure FileRec where
  filename : String
  status : Option String
  additions : Int
  deletions : Int
deriving DecidableEq, Repr

/-- One commit-level evolution entry as consumed by `CommitRow` and
`CommitEvolution` in FeatureList.jsx.  `total_additions` and
`total_deletions` are optional because the component defends against a
missing field with `|| 0`.  `timestamp` records the commit's ordering
key (spec section 3: ordering key is the timestamp). -/
structure EvolutionEntry where
  sha : String
  message : String
  author : String
  timestamp : Nat
  date : String
  total_additions : Option Int
  total_deletions : Option Int
  evolution_summary : String
  files_changed : List FileRec
deriving DecidableEq, Repr

/-- One version-timeline entry as consumed by `VersionTimeline`. -/
structure Version where
  version : String
  date : String
  description : String
deriving DecidableEq, Repr

/-- A feature produced by the classifier (`id`, `name`, `description`,
`files` in FeatureCard.jsx / App.jsx). -/
structure Feature where
  id : String
  name : String
  description : String
  files : List String
deriving DecidableEq, Repr

/-- The analysis result stored by `handleAnalyze` (`\x7b repo, features \x7d`). -/
structure Analysis where
  repo : String
  features : List Feature
deriving DecidableEq, Repr

/-- The two detail tabs of App.jsx. -/
inductive Tab where
  | timeline
  | evolution
deriving DecidableEq, Repr

/-- A per-feature cache, modelling the `versions` / `evolutions` state
objects of App.jsx (`\x7b featureId: [...] \x7d`). -/
abbrev Cache (α : Type) : Type := List (String × α)

/-- Property access `cache[featureId]`: first binding wins, `none` when
the key is absent. -/
def lookupC {α : Type} : Cache α → String → Option α
  | [], _ => none
  | (k, v) :: rest, fid => if k = fid then some v else lookupC rest fid

/-- The functional update `(prev) => (\x7b ...prev, [feature.id]: data \x7d)`:
the new binding shadows any previous one. -/
def insertC {α : Type} (m : Cache α) (k : String) (v : α) : Cache α :=
  (k, v) :: m

/-- The App component state relevant to the claims (App.jsx lines 10-18). -/
structure AppState where
  loading : Bool
  error : String
  analysis : Option Analysis
  activeFeature : Option Feature
  activeTab : Tab
  timelineLoading : Bool
  evolutionLoading : Bool
  versions : Cache (List Version)
  evolutions : Cache (List EvolutionEntry)
deriving DecidableEq, Repr

/-- Outcome of an awaited network helper: the promise either resolves
with a value or rejects with an error message. -/
inductive FetchResult (α : Type) where
  | ok (val : α)
  | err (msg : String)
deriving DecidableEq, Repr

/-- The initial App state (`useState` initialisers in App.jsx). -/
def initState : AppState :=
  { loading := false, error := "", analysis := none, activeFeature := none,
    activeTab := Tab.timeline, timelineLoading := false,
    evolutionLoading := false, versions := [], evolutions := [] }

/-- The synchronous prefix of `fetchEvolution` (App.jsx lines 51-53): the
guard `if (evolutions[feature.id]) return;` and `setEvolutionLoading(true)`.
A stored value is always an array and every array is truthy in
JavaScript, so the guard fires exactly when an entry exists.  Returns
the updated state and whether the computation (`getFeatureEvolution`)
is started. -/
def fetchEvolutionStart (s : AppState) (fid : String) : AppState × Bool :=
  if (lookupC s.evolutions fid).isSome then (s, false)
  else ({ s with evolutionLoading := true }, true)

/-- The continuation of `fetchEvolution` after `getFeatureEvolution`
settles (App.jsx lines 54-61): on success store `data.evolution`, on
rejection store the empty list; `finally` clears the loading flag. -/
def fetchEvolutionComplete (s : AppState) (fid : String)
    (result : FetchResult (List EvolutionEntry)) : AppState :=
  match result with
  | FetchResult.ok data =>
      { s with evolutions := insertC s.evolutions fid data,
               evolutionLoading := false }
  | FetchResult.err _ =>
      { s with evolutions := insertC s.evolutions fid [],
               evolutionLoading := false }

/-- One complete, non-overlapped run of `fetchEvolution` for feature
`fid`, where `result` is the outcome of the awaited
`getFeatureEvolution` call.  The returned number counts how many times
`getFeatureEvolution` was invoked. -/
def fetchEvolution (s : AppState) (fid : String)
    (result : FetchResult (List EvolutionEntry)) : AppState × Nat :=
  match fetchEvolutionStart s fid with
  | (s1, false) => (s1, 0)
  | (s1, true) => (fetchEvolutionComplete s1 fid result, 1)

/-- The synchronous prefix of `fetchTimeline` (App.jsx lines 38-40),
analogous to `fetchEvolutionStart`. -/
def fetchTimelineStart (s : AppState) (fid : String) : AppState × Bool :=
  if (lookupC s.versions fid).isSome then (s, false)
  else ({ s with timelineLoading := true }, true)

/-- The continuation of `fetchTimeline` after `getFeatureTimeline`
settles (App.jsx lines 41-48). -/
def fetchTimelineComplete (s : AppState) (fid : String)
    (result : FetchResult (List Version)) : AppState :=
  match result with
  | FetchResult.ok data =>
      { s with versions := insertC s.versions fid data,
               timelineLoading := false }
  | FetchResult.err _ =>
      { s with versions := insertC s.versions fid [],
               timelineLoading := false }

/-- One complete, non-overlapped run of `fetchTimeline`, counting
`getFeatureTimeline` invocations. -/
def fetchTimeline (s : AppState) (fid : String)
    (result : FetchResult (List Version)) : AppState × Nat :=
  match fetchTimelineStart s fid with
  | (s1, false) => (s1, 0)
  | (s1, true) => (fetchTimelineComplete s1 fid result, 1)

/-- Two overlapping invocations of `fetchEvolution` for the same feature
id, as produced e.g. by `handleSelectFeature` followed by
`handleTabSwitch` before the first network call resolves: both guards
run before either result is stored, then the two completions run in
order.  Returns the final state and the total number of
`getFeatureEvolution` invocations. -/
def overlappingFetchEvolution (s : AppState) (fid : String)
    (r1 r2 : FetchResult (List EvolutionEntry)) : AppState × Nat :=
  let p1 := fetchEvolutionStart s fid
  let p2 := fetchEvolutionStart p1.1 fid
  let c := (if p1.2 then 1 else 0) + (if p2.2 then 1 else 0)
  let s3 := if p1.2 then fetchEvolutionComplete p2.1 fid r1 else p2.1
  let s4 := if p2.2 then fetchEvolutionComplete s3 fid r2 else s3
  (s4, c)

/-- A stat badge rendered inside a `FileStat` row or commit row:
a green `+n` badge, a red `-n` badge, or the explicit `0` badge. -/
inductive StatBadge where
  | add (n : Int)
  | del (n : Int)
  | zero
deriving DecidableEq, Repr

/-- The stat badges rendered by `FileStat` (FeatureList.jsx lines 45-61):
`+additions` when positive, `-deletions` when positive, and the
explicit `0` badge exactly when both counts are zero. -/
def fileStatBadges (f : FileRec) : List StatBadge :=
  (if f.additions > 0 then [StatBadge.add f.additions] else []) ++
  (if f.deletions > 0 then [StatBadge.del f.deletions] else []) ++
  (if f.additions = 0 ∧ f.deletions = 0 then [StatBadge.zero] else [])

/-- The file rows rendered by the expanded `CommitRow` detail
(FeatureList.jsx line 116: `commit.files_changed.map ...` with one
`FileStat` per element): every record becomes a row showing its
filename and stat badges. -/
def renderFileRows (files : List FileRec) : List (String × List StatBadge) :=
  files.map (fun f => (f.filename, fileStatBadges f))

/-- JavaScript `x || 0` on an optional numeric field (`CommitRow` and
`CommitEvolution` both use it): a missing field — and the falsy value
`0` itself — yields `0`. -/
def orZero : Option Int → Int
  | some n => n
  | none => 0

/-- The aggregate header of the `CommitEvolution` panel
(FeatureList.jsx lines 150-152). -/
structure EvoTotals where
  totalCommits : Nat
  totalAdds : Int
  totalDels : Int
deriving DecidableEq, Repr

/-- The three `reduce`/`length` computations of `CommitEvolution`
(FeatureList.jsx lines 150-152). -/
def commitEvolutionTotals (evolution : List EvolutionEntry) : EvoTotals :=
  { totalCommits := evolution.length,
    totalAdds := evolution.foldl (fun s c => s + orZero c.total_additions) 0,
    totalDels := evolution.foldl (fun s c => s + orZero c.total_deletions) 0 }

/-- What the `CommitEvolution` component renders: the loading panel, the
"No commit-level evolution could be determined." panel, or the panel
with aggregate totals and one `CommitRow` per entry. -/
inductive EvoView where
  | loadingView
  | emptyView
  | panel (totals : EvoTotals) (rows : List EvolutionEntry)
deriving DecidableEq, Repr

/-- The `CommitEvolution` component (FeatureList.jsx lines 127-171):
`loading` short-circuits, a missing or empty list renders the empty
state, otherwise the panel shows the totals and maps the entries to
rows in list order (line 165: `evolution.map((c, i) => ...)`). -/
def CommitEvolution (evolution : Option (List EvolutionEntry))
    (loading : Bool) : EvoView :=
  if loading then EvoView.loadingView
  else
    match evolution with
    | none => EvoView.emptyView
    | some l =>
        if l.isEmpty then EvoView.emptyView
        else EvoView.panel (commitEvolutionTotals l) l

/-- The rows of a rendered `CommitEvolution` view (empty for the loading
and empty panels). -/
def EvoView.rowsOf : EvoView → List EvolutionEntry
  | EvoView.panel _ rows => rows
  | _ => []

/-- The totals of a rendered `CommitEvolution` view, when the panel is
shown. -/
def EvoView.totalsOf : EvoView → Option EvoTotals
  | EvoView.panel t _ => some t
  | _ => none

/-- What the `VersionTimeline` component renders
(VersionTimeline.jsx): loading panel, the "No version history could be
determined for this feature." panel, or the timeline. -/
inductive TimelineView where
  | loadingView
  | emptyView
  | panel (versions : List Version)
deriving DecidableEq, Repr

/-- The `VersionTimeline` component (VersionTimeline.jsx lines 1-45). -/
def VersionTimeline (versions : Option (List Version))
    (loading : Bool) : TimelineView :=
  if loading then TimelineView.loadingView
  else
    match versions with
    | none => TimelineView.emptyView
    | some l =>
        if l.isEmpty then TimelineView.emptyView
        else TimelineView.panel l

/-- An HTTP response as observed by the `analyzeRepo` helper
(App.jsx lines 176-187): the ok flag, the status code, the `detail`
field of the parsed JSON body (`none` when the field is absent or the
body does not parse — `res.json().catch(() => (\x7b\x7d))`), and the parsed
success payload. -/
structure HttpResponse where
  ok : Bool
  status : Nat
  detail : Option String
  payload : Option Analysis
deriving DecidableEq, Repr

/-- JavaScript `a || b` on an optional string: the default is used when
the field is absent or is the falsy empty string. -/
def jsOrString : Option String → String → String
  | some d, dflt => if d = "" then dflt else d
  | none, dflt => dflt

/-- The `analyzeRepo` helper (App.jsx lines 176-187): a non-ok response
throws `new Error(err.detail || Error <status>)`; an ok response
resolves with the parsed body. -/
def analyzeRepo (res : HttpResponse) : Except String (Option Analysis) :=
  if res.ok then Except.ok res.payload
  else Except.error (jsOrString res.detail ("Error " ++ toString res.status))

/-- The synchronous prefix of `handleAnalyze` (App.jsx lines 21-26),
run before `analyzeRepo` is awaited: set loading, clear the error, the
previous analysis, the active feature and both caches. -/
def handleAnalyzeStart (s : AppState) : AppState :=
  { s with loading := true, error := "", analysis := none,
           activeFeature := none, versions := [], evolutions := [] }

/-- The whole `handleAnalyze` run (App.jsx lines 20-36) for a given
response of the analyze request: after the synchronous reset, a
resolved `analyzeRepo` stores the data, a rejected one stores
`err.message || 'Something went wrong'` as the error; `finally`
clears the loading flag. -/
def handleAnalyze (s : AppState) (res : HttpResponse) : AppState :=
  let s0 := handleAnalyzeStart s
  match analyzeRepo res with
  | Except.ok d => { s0 with analysis := d, loading := false }
  | Except.error msg =>
      { s0 with error := if msg = "" then "Something went wrong" else msg,
                loading := false }

/-- The `handleSubmit` handler of `RepoInput` (RepoInput.jsx lines 7-10):
`onAnalyze(url.trim())` is called exactly when `url.trim()` is truthy,
i.e. non-empty.  The result is the argument passed to `onAnalyze`, or
`none` when it is not called. -/
def handleSubmit (url : String) : Option String :=
  if url.trim = "" then none else some url.trim

/-- The `disabled` condition of the submit button (RepoInput.jsx
line 21): `loading || !url.trim()`. -/
def submitDisabled (loading : Bool) (url : String) : Bool :=
  loading || url.trim = ""

/-- A form submission of `RepoInput`: the input and the button are
disabled while loading, so a submission event only reaches
`handleSubmit` through enabled controls. -/
def repoInputSubmit (loading : Bool) (url : String) : Option String :=
  if submitDisabled loading url then none else handleSubmit url

/-- A file badge of `FeatureCard` (FeatureCard.jsx lines 19-24): either
a basename badge or the `+k more` badge. -/
inductive FileBadge where
  | name (s : String)
  | more (k : Nat)
deriving DecidableEq, Repr

/-- `f.split('/').pop()`: the basename after the last `/`. -/
def basename (f : String) : String :=
  (f.splitOn "/").getLastD ""

/-- The files section of `FeatureCard` (FeatureCard.jsx lines 17-26):
rendered only when the feature has at least one file, showing the first
five basenames (`files.slice(0, 5)`) and, when more than five files
exist, a `+(length - 5) more` badge. -/
def featureCardFileBadges (files : List String) : Option (List FileBadge) :=
  if files.length > 0 then
    some ((files.take 5).map (fun f => FileBadge.name (basename f)) ++
      (if files.length > 5 then [FileBadge.more (files.length - 5)] else []))
  else none

/-- A commit as held by the History Store (spec section 3): identifier,
author, timestamp (the ordering key), display date, message and the
changed-file records. -/
structure Commit where
  sha : String
  author : String
  timestamp : Nat
  date : String
  message : String
  files : List FileRec
deriving DecidableEq, Repr

/-- Modelled from the spec: the backend feature-evolution pipeline is
not part of the frontend sources under src/.  Relevance Filter (spec
section 4.2): a commit is relevant when the intersection of its
changed-file paths with the feature's file set is non-empty, by
exact-string path matching. -/
def commitTouches (c : Commit) (fileSet : List String) : Bool :=
  c.files.any (fun f => fileSet.contains f.filename)

/-- Modelled from the spec: Relevance Filter selection (spec section
4.2) — traverse the store's commits, already in ascending timestamp
order, and keep exactly those touching the file set. -/
def selectRelevant (commits : List Commit) (fileSet : List String) :
    List Commit :=
  commits.filter (fun c => commitTouches c fileSet)

/-- Modelled from the spec: Diff Aggregator restriction (spec section
4.3) — only the commit's files inside the feature's file set. -/
def relevantFiles (c : Commit) (fileSet : List String) : List FileRec :=
  c.files.filter (fun f => fileSet.contains f.filename)

/-- Modelled from the spec: one EvolutionEntry (spec sections 3 and
4.4) — the commit reference, totals summed over the relevant files
only, and the narrative summary. -/
def mkEntry (fileSet : List String) (summary : String) (c : Commit) :
    EvolutionEntry :=
  let fs := relevantFiles c fileSet
  { sha := c.sha, message := c.message, author := c.author,
    timestamp := c.timestamp, date := c.date,
    total_additions := some ((fs.map (fun f => f.additions)).sum),
    total_deletions := some ((fs.map (fun f => f.deletions)).sum),
    evolution_summary := summary, files_changed := fs }

/-- Modelled from the spec: Evolution Narrator (spec section 4.4) — one
entry per selected commit, in the commits' order; a failed
summarization yields the fallback narrative instead of aborting. -/
def narrate (summarize : Commit → Option String) (fileSet : List String)
    (commits : List Commit) : List EvolutionEntry :=
  commits.map (fun c =>
    mkEntry fileSet
      (match summarize c with
       | some s => s
       | none => "summary unavailable") c)

/-- Modelled from the spec: the feature-evolution pipeline answering
"evolution of feature F" (spec section 2) — Relevance Filter composed
with the Narrator. -/
def featureEvolution (summarize : Commit → Option String)
    (commits : List Commit) (fileSet : List String) : List EvolutionEntry :=
  narrate summarize fileSet (selectRelevant commits fileSet)

/-- Ascending timestamp order on commits (spec section 3 ordering key). -/
def tsLeCommit (a b : Commit) : Prop := a.timestamp ≤ b.timestamp

/-- Ascending timestamp order on evolution entries. -/
def tsLeEntry (a b : EvolutionEntry) : Prop := a.timestamp ≤ b.timestamp

instance : DecidableRel tsLeCommit := fun a b =>
  inferInstanceAs (Decidable (a.timestamp ≤ b.timestamp))

instance : DecidableRel tsLeEntry := fun a b =>
  inferInstanceAs (Decidable (a.timestamp ≤ b.timestamp))

/-- A sample evolution entry used to exercise the renderer. -/
def entryA : EvolutionEntry :=
  { sha := "a1b2c3d", message := "add parser core", author := "kay",
    timestamp := 10, date := "2024-01-01", total_additions := some 3,
    total_deletions := none, evolution_summary := "initial version",
    files_changed := [] }

/-- A sample app state whose caches already hold an entry — the empty
list — for feature id f1. -/
def cachedState : AppState :=
  { initState with versions := [("f1", [])], evolutions := [("f1", [])] }

/-- A failing analyze response whose JSON body carries an empty
`detail` field. -/
def emptyDetailResponse : HttpResponse :=
  { ok := false, status := 500, detail := some "", payload := none }

/-- A failing analyze response with a non-empty `detail` field. -/
def notFoundResponse : HttpResponse :=
  { ok := false, status := 404, detail := some "Repo not found",
    payload := none }

/-- Sample commits in ascending timestamp order. -/
def commitA : Commit :=
  { sha := "c1", author := "kay", timestamp := 1, date := "2024-01-01",
    message := "touch a.js", files := [⟨"a.js", some "modified", 2, 1⟩] }

def commitB : Commit :=
  { sha := "c2", author := "kay", timestamp := 2, date := "2024-01-02",
    message := "touch b.js", files := [⟨"b.js", some "added", 5, 0⟩] }

def commitC : Commit :=
  { sha := "c3", author := "kay", timestamp := 3, date := "2024-01-03",
    message := "touch both",
    files := [⟨"a.js", some "modified", 1, 1⟩, ⟨"b.js", some "modified", 0, 2⟩] }

/-- A file record with zero additions and zero deletions (pure rename). -/
def zeroFile : FileRec :=
  { filename := "src/old.js", status := some "renamed",
    additions := 0, deletions := 0 }

/-- A left fold accumulating `init + f c` equals the initial value plus
the sum of the mapped list — the shape of the `reduce` calls in
`CommitEvolution`. -/
theorem foldl_add_eq_sum (g : EvolutionEntry → Int) (l : List EvolutionEntry)
    (init : Int) :
    l.foldl (fun s c => s + g c) init = init + (l.map g).sum := by
  induction l generalizing init with
  | nil => simp
  | cons a t ih => simp [ih]; ring

/-- C2: for every non-empty evolution list rendered by CommitEvolution,
the displayed aggregate totals equal the list's length, the sum of the
entries' total_additions (a missing field counting as 0), and the sum
of the entries' total_deletions. -/
theorem commitEvolution_totals_correct (evolution : List EvolutionEntry)
    (h : evolution ≠ []) :
    (CommitEvolution (some evolution) false).totalsOf =
      some { totalCommits := evolution.length,
             totalAdds := (evolution.map (fun c => orZero c.total_additions)).sum,
             totalDels := (evolution.map (fun c => orZero c.total_deletions)).sum } := by
  have hne : evolution.isEmpty = false := by
    cases evolution with
    | nil => exact absurd rfl h
    | cons a t => rfl
  simp [CommitEvolution, hne, EvoView.totalsOf, commitEvolutionTotals,
    foldl_add_eq_sum]

/-- Witness for C2 at a concrete one-entry list. -/
theorem commitEvolution_totals_correct_witness :
    [entryA] ≠ [] ∧
    (CommitEvolution (some [entryA]) false).totalsOf =
      some { totalCommits := 1, totalAdds := 3, totalDels := 0 } :=
  ⟨by decide, commitEvolution_totals_correct [entryA] (by decide)⟩

/-- C3: Session Cache entries are write-once — once a versions list or
evolution list (including an empty one) is stored for a feature id,
a later fetchTimeline / fetchEvolution for that id returns early: the
state is unchanged, the stored value still looked up, and the
underlying computation is invoked zero times. -/
theorem sessionCache_write_once (s : AppState) (fid : String)
    (v : List Version) (e : List EvolutionEntry)
    (r1 : FetchResult (List Version)) (r2 : FetchResult (List EvolutionEntry))
    (hv : lookupC s.versions fid = some v)
    (he : lookupC s.evolutions fid = some e) :
    fetchTimeline s fid r1 = (s, 0) ∧
    fetchEvolution s fid r2 = (s, 0) ∧
    lookupC (fetchTimeline s fid r1).1.versions fid = some v ∧
    lookupC (fetchEvolution s fid r2).1.evolutions fid = some e := by
  simp [fetchTimeline, fetchEvolution, fetchTimelineStart, fetchEvolutionStart,
    hv, he]

/-- Witness for C3 at a state caching the empty list for f1. -/
theorem sessionCache_write_once_witness :
    lookupC cachedState.versions "f1" = some [] ∧
    lookupC cachedState.evolutions "f1" = some [] ∧
    (fetchTimeline cachedState "f1" (FetchResult.err "down") = (cachedState, 0) ∧
     fetchEvolution cachedState "f1" (FetchResult.ok [entryA]) = (cachedState, 0) ∧
     lookupC (fetchTimeline cachedState "f1" (FetchResult.err "down")).1.versions "f1" = some [] ∧
     lookupC (fetchEvolution cachedState "f1" (FetchResult.ok [entryA])).1.evolutions "f1" = some []) :=
  ⟨by decide, by decide,
    sessionCache_write_once cachedState "f1" [] []
      (FetchResult.err "down") (FetchResult.ok [entryA]) (by decide) (by decide)⟩

/-- C1 counterexample: at the initial state, a rejected
getFeatureEvolution call for feature f1 leaves the error state empty,
stores the empty list in the evolutions cache, and lets
CommitEvolution render the "No commit-level evolution could be
determined." state — the failure is NOT surfaced as an error, contrary
to the claim. -/
theorem fetchEvolution_rejection_counterexample :
    (fetchEvolution initState "f1" (FetchResult.err "network down")).1.error = "" ∧
    lookupC (fetchEvolution initState "f1" (FetchResult.err "network down")).1.evolutions "f1" = some [] ∧
    CommitEvolution
      (lookupC (fetchEvolution initState "f1" (FetchResult.err "network down")).1.evolutions "f1")
      false = EvoView.emptyView := by
  decide

/-- C1 amended: when getFeatureEvolution (resp. getFeatureTimeline)
rejects and no entry exists yet, fetchEvolution (resp. fetchTimeline)
stores an empty list for that feature, leaves the error state
unchanged, and the panel renders the no-history empty state — the
request failure is silently presented as absent history. -/
theorem fetchEvolution_rejection_stores_empty (s : AppState) (fid : String)
    (msg msg2 : String)
    (he : lookupC s.evolutions fid = none)
    (hv : lookupC s.versions fid = none) :
    (fetchEvolution s fid (FetchResult.err msg)).1.error = s.error ∧
    lookupC (fetchEvolution s fid (FetchResult.err msg)).1.evolutions fid = some [] ∧
    CommitEvolution
      (lookupC (fetchEvolution s fid (FetchResult.err msg)).1.evolutions fid)
      false = EvoView.emptyView ∧
    (fetchTimeline s fid (FetchResult.err msg2)).1.error = s.error ∧
    lookupC (fetchTimeline s fid (FetchResult.err msg2)).1.versions fid = some [] ∧
    VersionTimeline
      (lookupC (fetchTimeline s fid (FetchResult.err msg2)).1.versions fid)
      false = TimelineView.emptyView := by
  simp [fetchEvolution, fetchEvolutionStart, fetchEvolutionComplete,
    fetchTimeline, fetchTimelineStart, fetchTimelineComplete,
    he, hv, insertC, lookupC, CommitEvolution, VersionTimeline]

/-- Witness for the amended C1 at the initial state. -/
theorem fetchEvolution_rejection_stores_empty_witness :
    lookupC initState.evolutions "f1" = none ∧
    lookupC initState.versions "f1" = none ∧
    ((fetchEvolution initState "f1" (FetchResult.err "boom")).1.error = initState.error ∧
     lookupC (fetchEvolution initState "f1" (FetchResult.err "boom")).1.evolutions "f1" = some [] ∧
     CommitEvolution
       (lookupC (fetchEvolution initState "f1" (FetchResult.err "boom")).1.evolutions "f1")
       false = EvoView.emptyView ∧
     (fetchTimeline initState "f1" (FetchResult.err "late")).1.error = initState.error ∧
     lookupC (fetchTimeline initState "f1" (FetchResult.err "late")).1.versions "f1" = some [] ∧
     VersionTimeline
       (lookupC (fetchTimeline initState "f1" (FetchResult.err "late")).1.versions "f1")
       false = TimelineView.emptyView) :=
  ⟨rfl, rfl,
    fetchEvolution_rejection_stores_empty initState "f1" "boom" "late" rfl rfl⟩

/-- C4: with the History Store's commits in ascending timestamp order
(spec section 3 invariant), the evolution entries produced by the
pipeline are ordered oldest-to-newest by commit timestamp, and the
CommitEvolution panel renders exactly the list it receives, in list
order. -/
theorem evolution_entries_ordered_oldest_to_newest
    (summarize : Commit → Option String) (commits : List Commit)
    (fileSet : List String)
    (h : commits.Pairwise tsLeCommit) :
    (featureEvolution summarize commits fileSet).Pairwise tsLeEntry ∧
    (CommitEvolution (some (featureEvolution summarize commits fileSet))
        false).rowsOf = featureEvolution summarize commits fileSet := by
  constructor
  · have hf : (selectRelevant commits fileSet).Pairwise tsLeCommit :=
      h.filter _
    exact hf.map _ (fun a b hab => hab)
  · by_cases hemp : (featureEvolution summarize commits fileSet).isEmpty
    · rw [List.isEmpty_iff] at hemp
      simp [CommitEvolution, hemp, EvoView.rowsOf]
    · simp [CommitEvolution, Bool.not_eq_true] at hemp
      simp [CommitEvolution, hemp, EvoView.rowsOf]

/-- Witness for C4 at a concrete three-commit store and file set. -/
theorem evolution_entries_ordered_witness :
    [commitA, commitB, commitC].Pairwise tsLeCommit ∧
    ((featureEvolution (fun _ => none) [commitA, commitB, commitC] ["a.js"]).Pairwise tsLeEntry ∧
     (CommitEvolution
        (some (featureEvolution (fun _ => none) [commitA, commitB, commitC] ["a.js"]))
        false).rowsOf =
       featureEvolution (fun _ => none) [commitA, commitB, commitC] ["a.js"]) :=
  ⟨by decide,
    evolution_entries_ordered_oldest_to_newest (fun _ => none)
      [commitA, commitB, commitC] ["a.js"] (by decide)⟩

/-- C5: every per-file record in a commit's detail is rendered as a row
(never dropped); a record with zero additions and zero deletions shows
exactly the explicit 0 badge, a positive additions or deletions count
shows the corresponding badge, and the 0 badge never appears alongside
a positive count. -/
theorem fileStat_zero_rendered (files : List FileRec) (f : FileRec)
    (h : f ∈ files) :
    (f.filename, fileStatBadges f) ∈ renderFileRows files ∧
    (f.additions = 0 ∧ f.deletions = 0 →
      fileStatBadges f = [StatBadge.zero]) ∧
    (0 < f.additions → StatBadge.add f.additions ∈ fileStatBadges f) ∧
    (0 < f.deletions → StatBadge.del f.deletions ∈ fileStatBadges f) ∧
    (0 < f.additions ∨ 0 < f.deletions →
      StatBadge.zero ∉ fileStatBadges f) := by
  refine ⟨List.mem_map_of_mem _ h, ?_, ?_, ?_, ?_⟩
  · rintro ⟨h1, h2⟩
    simp [fileStatBadges, h1, h2]
  · intro hp
    have hne : ¬(f.additions = 0 ∧ f.deletions = 0) := by
      rintro ⟨h1, _⟩; omega
    simp [fileStatBadges, hp, hne]
  · intro hp
    have hne : ¬(f.additions = 0 ∧ f.deletions = 0) := by
      rintro ⟨_, h2⟩; omega
    simp [fileStatBadges, hp, hne]
  · intro hor hmem
    have hne : ¬(f.additions = 0 ∧ f.deletions = 0) := by
      rintro ⟨h1, h2⟩
      rcases hor with hp | hp <;> omega
    by_cases ha : (0 : Int) < f.additions <;>
      by_cases hd : (0 : Int) < f.deletions <;>
        simp [fileStatBadges, ha, hd, hne] at hmem

/-- Witness for C5 at a pure-rename file record. -/
theorem fileStat_zero_rendered_witness :
    zeroFile ∈ [zeroFile] ∧
    ((zeroFile.filename, fileStatBadges zeroFile) ∈ renderFileRows [zeroFile] ∧
     (zeroFile.additions = 0 ∧ zeroFile.deletions = 0 →
       fileStatBadges zeroFile = [StatBadge.zero]) ∧
     (0 < zeroFile.additions →
       StatBadge.add zeroFile.additions ∈ fileStatBadges zeroFile) ∧
     (0 < zeroFile.deletions →
       StatBadge.del zeroFile.deletions ∈ fileStatBadges zeroFile) ∧
     (0 < zeroFile.additions ∨ 0 < zeroFile.deletions →
       StatBadge.zero ∉ fileStatBadges zeroFile)) :=
  ⟨by decide, fileStat_zero_rendered [zeroFile] zeroFile (by decide)⟩

/-- C6 counterexample: at the initial state, two overlapping
invocations of fetchEvolution for feature f1 — the second guard runs
before the first result is stored — invoke getFeatureEvolution twice,
not once. -/
theorem overlapping_fetchEvolution_counterexample :
    (overlappingFetchEvolution initState "f1"
      (FetchResult.ok [entryA]) (FetchResult.ok [entryA])).2 = 2 := by
  decide

/-- C6 amended: the cache guard deduplicates only completed
computations — two overlapping invocations of fetchEvolution for an
uncached feature id each call getFeatureEvolution (two computations),
while an invocation after a completed one calls it zero times. -/
theorem fetchEvolution_dedup_after_store (s : AppState) (fid : String)
    (r1 r2 : FetchResult (List EvolutionEntry))
    (h : lookupC s.evolutions fid = none) :
    (overlappingFetchEvolution s fid r1 r2).2 = 2 ∧
    (fetchEvolution (fetchEvolution s fid r1).1 fid r2).2 = 0 := by
  constructor
  · simp [overlappingFetchEvolution, fetchEvolutionStart, h]
  · cases r1 with
    | ok data =>
        simp [fetchEvolution, fetchEvolutionStart, fetchEvolutionComplete,
          h, insertC, lookupC]
    | err m =>
        simp [fetchEvolution, fetchEvolutionStart, fetchEvolutionComplete,
          h, insertC, lookupC]

/-- Witness for the amended C6 at the initial state. -/
theorem fetchEvolution_dedup_after_store_witness :
    lookupC initState.evolutions "f1" = none ∧
    ((overlappingFetchEvolution initState "f1"
        (FetchResult.ok [entryA]) (FetchResult.err "late")).2 = 2 ∧
     (fetchEvolution
        (fetchEvolution initState "f1" (FetchResult.ok [entryA])).1 "f1"
        (FetchResult.err "late")).2 = 0) :=
  ⟨rfl,
    fetchEvolution_dedup_after_store initState "f1"
      (FetchResult.ok [entryA]) (FetchResult.err "late") rfl⟩

/-- C7 counterexample: a non-ok response whose body carries a present
but empty detail field yields the message "Error 500", not the detail
field's value. -/
theorem analyzeRepo_empty_detail_counterexample :
    emptyDetailResponse.ok = false ∧
    emptyDetailResponse.detail = some "" ∧
    analyzeRepo emptyDetailResponse ≠ Except.error "" ∧
    analyzeRepo emptyDetailResponse = Except.error "Error 500" := by
  refine ⟨rfl, rfl, ?_, ?_⟩
  · intro hcontra
    simp [analyzeRepo, emptyDetailResponse, jsOrString] at hcontra
    exact absurd hcontra (by decide)
  · simp [analyzeRepo, emptyDetailResponse, jsOrString]
    decide

/-- C7 amended: on a non-ok response, analyzeRepo throws an Error whose
message is the body's detail field when present AND non-empty, and
otherwise the string Error followed by the status; handleAnalyze then
surfaces exactly that message (or the fallback text when the message is
empty) and leaves the analysis state cleared. -/
theorem analyzeRepo_error_message (s : AppState) (res : HttpResponse)
    (h : res.ok = false) :
    (∀ d, res.detail = some d → d ≠ "" →
      analyzeRepo res = Except.error d) ∧
    ((res.detail = none ∨ res.detail = some "") →
      analyzeRepo res = Except.error ("Error " ++ toString res.status)) ∧
    (handleAnalyze s res).analysis = none ∧
    (∃ m, analyzeRepo res = Except.error m ∧
      (handleAnalyze s res).error =
        (if m = "" then "Something went wrong" else m)) := by
  refine ⟨?_, ?_, ?_, ?_⟩
  · intro d hd hne
    simp [analyzeRepo, h, hd, jsOrString, hne]
  · intro hcase
    rcases hcase with hd | hd <;> simp [analyzeRepo, h, hd, jsOrString]
  · simp [handleAnalyze, analyzeRepo, h, handleAnalyzeStart]
  · refine ⟨jsOrString res.detail ("Error " ++ toString res.status), ?_, ?_⟩
    · simp [analyzeRepo, h]
    · simp [handleAnalyze, analyzeRepo, h, handleAnalyzeStart]

/-- Witness for the amended C7 at a 404 with a non-empty detail. -/
theorem analyzeRepo_error_message_witness :
    notFoundResponse.ok = false ∧
    ((∀ d, notFoundResponse.detail = some d → d ≠ "" →
        analyzeRepo notFoundResponse = Except.error d) ∧
     ((notFoundResponse.detail = none ∨ notFoundResponse.detail = some "") →
       analyzeRepo notFoundResponse =
         Except.error ("Error " ++ toString notFoundResponse.status)) ∧
     (handleAnalyze initState notFoundResponse).analysis = none ∧
     (∃ m, analyzeRepo notFoundResponse = Except.error m ∧
       (handleAnalyze initState notFoundResponse).error =
         (if m = "" then "Something went wrong" else m))) :=
  ⟨rfl, analyzeRepo_error_message initState notFoundResponse rfl⟩

/-- C8: the synchronous prefix of handleAnalyze, run before analyzeRepo
is awaited, clears the previous analysis, the active feature, the error
text and both caches, so no entry keyed by any previous feature id is
observable in the new session. -/
theorem handleAnalyze_clears_session (s : AppState) (fid : String) :
    (handleAnalyzeStart s).analysis = none ∧
    (handleAnalyzeStart s).activeFeature = none ∧
    (handleAnalyzeStart s).error = "" ∧
    lookupC (handleAnalyzeStart s).versions fid = none ∧
    lookupC (handleAnalyzeStart s).evolutions fid = none := by
  simp [handleAnalyzeStart, lookupC]

/-- C9: a RepoInput submission calls onAnalyze exactly when the app is
not loading and the input trims to a non-empty string, and the value
passed is the trimmed input; otherwise onAnalyze is not called. -/
theorem repoInput_submit_behavior (loading : Bool) (url : String) :
    repoInputSubmit loading url =
      if loading = false ∧ url.trim ≠ "" then some url.trim else none := by
  cases loading with
  | false =>
      by_cases h : url.trim = "" <;>
        simp [repoInputSubmit, submitDisabled, handleSubmit, h]
  | true => simp [repoInputSubmit, submitDisabled]

/-- C10: FeatureCard renders no files section for a feature without
files; for 1 to 5 files it shows all their basenames and nothing else;
for more than 5 files it shows exactly the first five basenames plus a
more badge counting the remaining files. -/
theorem featureCard_file_badges (files : List String) :
    featureCardFileBadges files =
      if files.length = 0 then none
      else if files.length ≤ 5 then
        some (files.map (fun f => FileBadge.name (basename f)))
      else
        some ((files.take 5).map (fun f => FileBadge.name (basename f)) ++
          [FileBadge.more (files.length - 5)]) := by
  by_cases h0 : files.length = 0
  · simp [featureCardFileBadges, h0]
  · by_cases h5 : files.length ≤ 5
    · have hnot : ¬files.length > 5 := by omega
      have hpos : files.length > 0 := by omega
      simp [featureCardFileBadges, h0, h5, hpos, hnot,
        List.take_of_length_le h5]
    · have hgt : files.length > 5 := by omega
      have hpos : files.length > 0 := by omega
      simp [featureCardFileBadges, h0, h5, hpos, hgt]

end GitTime
